import Mathlib

/-
Verification development for the client of the vscode-patched extension
(src/client/src/extension.ts).  The configuration model, the settings
Migration engine (record / needsUpdate / update), the validation gate
computeValidate, the probe-failed memory and the working-directory
resolution of the configuration middleware are embedded shallowly as
executable Lean definitions, and the specified properties are proved or
refuted about them.
-/

namespace Patched

/-- The three configuration tiers of a scoped setting
(vscode ConfigurationTarget / the three slots of an inspect result). -/
inductive Tier
  | global
  | workspace
  | workspaceFolder
deriving DecidableEq, Repr

/-- Embeds interface InspectData<T> (extension.ts lines 441-445): the raw
three-tier snapshot returned by WorkspaceConfiguration.inspect. -/
structure InspectData (T : Type) where
  globalValue : Option T
  workspaceValue : Option T
  workspaceFolderValue : Option T
deriving DecidableEq, Repr

/-- Embeds interface MigrationElement<T> (lines 446-449): one tier's value
plus the flag recording whether the migration rewrote it. -/
structure MigrationElement (T : Type) where
  changed : Bool
  value : Option T
deriving DecidableEq, Repr

/-- Embeds interface MigrationData<T> (lines 451-455): the three
MigrationElement of one logical setting. -/
structure MigrationData (T : Type) where
  global : MigrationElement T
  workspace : MigrationElement T
  workspaceFolder : MigrationElement T
deriving DecidableEq, Repr

/-- Embeds interface CodeActionsOnSave (lines 457-461): the editor's
codeActionsOnSave map.  The two identifiers the migration reads and writes
are modelled as named fields; every other key of the map is carried opaquely
in the field other, which the code never touches. -/
structure CodeActionsOnSave where
  sourceFixAll : Option Bool
  sourceFixAllPatched : Option Bool
  other : List (String × Bool)
deriving DecidableEq, Repr

/-- The empty object written by the code when a codeActionsOnSave value is
absent or not an object literal. -/
def CodeActionsOnSave.empty : CodeActionsOnSave :=
  { sourceFixAll := none, sourceFixAllPatched := none, other := [] }

/-- Embeds interface LanguageSettings (lines 463-465): the per-language
configuration slot holding an embedded editor.codeActionsOnSave map. -/
structure LanguageSettings where
  editorCodeActionsOnSave : Option CodeActionsOnSave
deriving DecidableEq, Repr

/-- Embeds interface ValidateItem and the string alternative of the
validate list (lines 44-54): a bare language id or a
record with language and optional autoFix. -/
inductive ValidateEntry
  | str (s : String)
  | item (language : String) (autoFix : Option Bool)
deriving DecidableEq, Repr

/-- Embeds ModeEnum (lines 68-77). -/
inductive ModeEnum
  | auto
  | location
deriving DecidableEq, Repr

/-- Embeds the union of working-directory entry shapes (lines 56-112):
plain string, legacy directory plus changeProcessCWD, current directory
with optional cwd suppression, glob pattern with optional cwd suppression,
or mode item. -/
inductive WorkingDirEntry
  | str (s : String)
  | legacy (directory : String) (changeProcessCWD : Bool)
  | dir (directory : String) (noCwd : Option Bool)
  | pat (p : String) (noCwd : Option Bool)
  | mode (m : ModeEnum)
deriving DecidableEq, Repr

/-- Embeds MigrationData.create (lines 467-480). -/
def MigrationData.create {T : Type} (inspect : Option (InspectData T)) : MigrationData T :=
  match inspect with
  | none =>
    { global := { value := none, changed := false }
      workspace := { value := none, changed := false }
      workspaceFolder := { value := none, changed := false } }
  | some i =>
    { global := { value := i.globalValue, changed := false }
      workspace := { value := i.workspaceValue, changed := false }
      workspaceFolder := { value := i.workspaceFolderValue, changed := false } }

/-- Embeds MigrationData.needsUpdate (lines 481-483). -/
def MigrationData.needsUpdate {T : Type} (data : MigrationData T) : Bool :=
  data.global.changed || data.workspace.changed || data.workspaceFolder.changed

/-- Tier projection of a MigrationData. -/
def MigrationData.get {T : Type} (d : MigrationData T) : Tier → MigrationElement T
  | Tier.global => d.global
  | Tier.workspace => d.workspace
  | Tier.workspaceFolder => d.workspaceFolder

/-- Tier replacement in a MigrationData. -/
def MigrationData.set {T : Type} (d : MigrationData T) (t : Tier) (e : MigrationElement T) :
    MigrationData T :=
  match t with
  | Tier.global => { d with global := e }
  | Tier.workspace => { d with workspace := e }
  | Tier.workspaceFolder => { d with workspaceFolder := e }

/-- The configuration store as seen by the Migration constructor (lines
501-510): the inspect results of the four setting families, plus the
inspect result of the per-language section for each language id (the
source builds the section string from the language id; the
function here is keyed directly by the language id). -/
structure ConfigSnapshot where
  codeActionsOnSave : Option (InspectData CodeActionsOnSave)
  autoFixOnSave : Option (InspectData Bool)
  validate : Option (InspectData (List ValidateEntry))
  workingDirectories : Option (InspectData (List WorkingDirEntry))
  languageSections : String → Option (InspectData LanguageSettings)

/-- Embeds the in-memory state of class Migration (lines 486-510):
the four MigrationData snapshots and the lazily populated per-language
cache (a JS Map, modelled as an insertion-ordered association list). -/
structure Migration where
  codeActionOnSave : MigrationData CodeActionsOnSave
  autoFixOnSave : MigrationData Bool
  validate : MigrationData (List ValidateEntry)
  workingDirectories : MigrationData (List WorkingDirEntry)
  languageSpecificSettings : List (String × MigrationData CodeActionsOnSave)

/-- Embeds the Migration constructor (lines 501-510). -/
def Migration.create (cfg : ConfigSnapshot) : Migration :=
  { codeActionOnSave := MigrationData.create cfg.codeActionsOnSave
    autoFixOnSave := MigrationData.create cfg.autoFixOnSave
    validate := MigrationData.create cfg.validate
    workingDirectories := MigrationData.create cfg.workingDirectories
    languageSpecificSettings := [] }

/-- Embeds the nested record helper of Migration.recordAutoFixOnSave
(lines 522-546): returns the mutated codeActionsOnSave element of the tier
and the boolean result fed to the validate migration.  The commented-out
rewrite of the autoFixOnSave element in the source is a no-op and is
therefore absent here. -/
def recordAutoFixOnSaveTier (elem : MigrationElement Bool)
    (setting : MigrationElement CodeActionsOnSave) :
    MigrationElement CodeActionsOnSave × Bool :=
  -- if it is explicitly set to false don't convert anything anymore
  if (setting.value.bind fun v => v.sourceFixAllPatched) = some false then
    (setting, false)
  else
    let v := setting.value.getD CodeActionsOnSave.empty
    let autoFix : Bool := elem.value.getD false
    let sourceFixAll : Bool := v.sourceFixAll.getD false
    if autoFix ≠ sourceFixAll ∧ autoFix = true ∧ v.sourceFixAllPatched = none then
      let v' := { v with sourceFixAllPatched := elem.value }
      ({ changed := true, value := some v' }, v'.sourceFixAllPatched.getD false)
    else
      ({ setting with value := some v }, v.sourceFixAll.getD false)

/-- Embeds Migration.recordAutoFixOnSave (lines 548-553): applies the tier
helper to the three tiers and returns the triple of results. -/
def Migration.recordAutoFixOnSave (m : Migration) : Migration × (Bool × Bool × Bool) :=
  let g := recordAutoFixOnSaveTier m.autoFixOnSave.global m.codeActionOnSave.global
  let w := recordAutoFixOnSaveTier m.autoFixOnSave.workspace m.codeActionOnSave.workspace
  let f := recordAutoFixOnSaveTier m.autoFixOnSave.workspaceFolder m.codeActionOnSave.workspaceFolder
  ({ m with codeActionOnSave := { global := g.1, workspace := w.1, workspaceFolder := f.1 } },
   (g.2, w.2, f.2))

/-- Builds the per-language MigrationData from an inspect result of the
per-language section, extracting the embedded editor.codeActionsOnSave of
each tier (lines 596-599). -/
def languageMigrationData (i : InspectData LanguageSettings) : MigrationData CodeActionsOnSave :=
  MigrationData.create (some
    { globalValue := i.globalValue.bind fun s => s.editorCodeActionsOnSave
      workspaceValue := i.workspaceValue.bind fun s => s.editorCodeActionsOnSave
      workspaceFolderValue := i.workspaceFolderValue.bind fun s => s.editorCodeActionsOnSave })

/-- Association-list lookup keyed by string, embedding Map.get. -/
def lookupEntry {α : Type} : List (String × α) → String → Option α
  | [], _ => none
  | p :: rest, key => if p.1 = key then some p.2 else lookupEntry rest key

/-- Association-list replacement keyed by string, embedding the in-place
mutation of a value already stored in the Map. -/
def updateEntry {α : Type} : List (String × α) → String → α → List (String × α)
  | [], _, _ => []
  | p :: rest, key, v => if p.1 = key then (key, v) :: rest else p :: updateEntry rest key v

/-- Embeds the per-language mutation of the validate migration
(lines 566-573): normalize the element's value to an object, and unless the
linter-specific flag is already false, set it to false and mark changed. -/
def mutateLanguageElement (e : MigrationElement CodeActionsOnSave) :
    MigrationElement CodeActionsOnSave :=
  let v := e.value.getD CodeActionsOnSave.empty
  if v.sourceFixAllPatched = some false then
    { e with value := some v }
  else
    { changed := true, value := some { v with sourceFixAllPatched := some false } }

/-- The per-language cache during recordValidate, together with a ghost log
of the MigrationData that getCodeActionsOnSave created while the inspect of
the section returned undefined: the source hands such a fresh object to the
mutation code without storing it in languageSpecificSettings (lines
591-594), so the object is discarded; the log records it purely for
stating properties and is dropped by Migration.record. -/
structure LangCache where
  cache : List (String × MigrationData CodeActionsOnSave)
  lost : List (String × MigrationData CodeActionsOnSave)
deriving Repr

/-- Embeds one iteration of the loop of the nested record helper of
Migration.recordValidate (lines 560-581) together with the settingAccessor
getCodeActionsOnSave (lines 586-602): bare strings are skipped; a record
entry with autoFix false, under an active fixAll cascade, fetches the
language's MigrationData (from the cache, else created from the inspect
result and cached, else created empty and NOT cached when inspect returns
undefined) and applies the flag mutation to the given tier.  The
commented-out rewrite of the entry itself is a no-op. -/
def recordValidateItem (cfg : ConfigSnapshot) (tier : Tier) (fixAll : Bool)
    (s : LangCache) (item : ValidateEntry) : LangCache :=
  match item with
  | ValidateEntry.str _ => s
  | ValidateEntry.item language autoFix =>
    if fixAll = true ∧ autoFix = some false then
      match lookupEntry s.cache language with
      | some data =>
        let data' := data.set tier (mutateLanguageElement (data.get tier))
        { s with cache := updateEntry s.cache language data' }
      | none =>
        match cfg.languageSections language with
        | some i =>
          let data := languageMigrationData i
          let data' := data.set tier (mutateLanguageElement (data.get tier))
          { s with cache := s.cache ++ [(language, data')] }
        | none =>
          let data : MigrationData CodeActionsOnSave := MigrationData.create none
          let data' := data.set tier (mutateLanguageElement (data.get tier))
          { s with lost := s.lost ++ [(language, data')] }
    else s

/-- Embeds the nested record helper of Migration.recordValidate for one
tier (lines 556-582): an absent validate list is skipped, otherwise the
entries are processed in order. -/
def recordValidateTier (cfg : ConfigSnapshot) (tier : Tier) (fixAll : Bool)
    (elem : MigrationElement (List ValidateEntry)) (s : LangCache) : LangCache :=
  match elem.value with
  | none => s
  | some items => items.foldl (recordValidateItem cfg tier fixAll) s

/-- Embeds Migration.recordValidate (lines 555-607), including the fixAll
cascade of lines 604-606: the workspace tier uses its own result if truthy
else the global one, and the workspace-folder tier its own if truthy else
the workspace's cascaded value.  Returns the Migration with the updated
per-language cache and the ghost log of discarded per-language data. -/
def Migration.recordValidate (cfg : ConfigSnapshot) (m : Migration)
    (fixAll : Bool × Bool × Bool) : Migration × List (String × MigrationData CodeActionsOnSave) :=
  let s0 : LangCache := { cache := m.languageSpecificSettings, lost := [] }
  let s1 := recordValidateTier cfg Tier.global fixAll.1 m.validate.global s0
  let s2 := recordValidateTier cfg Tier.workspace
    (if fixAll.2.1 = true then fixAll.2.1 else fixAll.1) m.validate.workspace s1
  let s3 := recordValidateTier cfg Tier.workspaceFolder
    (if fixAll.2.2 = true then fixAll.2.2 else
      (if fixAll.2.1 = true then fixAll.2.1 else fixAll.1)) m.validate.workspaceFolder s2
  ({ m with languageSpecificSettings := s3.cache }, s3.lost)

/-- Embeds one iteration of the loop of Migration.recordWorkingDirectories
(lines 610-636): strings, mode items, pattern items and directory items
with an explicit cwd flag are skipped, and the rewrite of the remaining
shapes is commented out in the source, so every case leaves the element
untouched. -/
def recordWorkingDirectoriesItem (elem : MigrationElement (List WorkingDirEntry))
    (item : WorkingDirEntry) : MigrationElement (List WorkingDirEntry) :=
  match item with
  | WorkingDirEntry.str _ => elem
  | WorkingDirEntry.mode _ => elem
  | WorkingDirEntry.pat _ _ => elem
  | WorkingDirEntry.dir _ _ => elem
  | WorkingDirEntry.legacy _ _ => elem

/-- Embeds the nested record helper of Migration.recordWorkingDirectories
for one tier (lines 610-636). -/
def recordWorkingDirectoriesTier (elem : MigrationElement (List WorkingDirEntry)) :
    MigrationElement (List WorkingDirEntry) :=
  match elem.value with
  | none => elem
  | some items => items.foldl recordWorkingDirectoriesItem elem

/-- Embeds Migration.recordWorkingDirectories (lines 609-641). -/
def Migration.recordWorkingDirectories (m : Migration) : Migration :=
  { m with workingDirectories :=
      { global := recordWorkingDirectoriesTier m.workingDirectories.global
        workspace := recordWorkingDirectoriesTier m.workingDirectories.workspace
        workspaceFolder := recordWorkingDirectoriesTier m.workingDirectories.workspaceFolder } }

/-- Embeds Migration.record (lines 512-516), additionally returning the
ghost log of per-language MigrationData that were created and mutated but
discarded because the inspect of their section returned undefined. -/
def Migration.recordWithLog (cfg : ConfigSnapshot) (m : Migration) :
    Migration × List (String × MigrationData CodeActionsOnSave) :=
  let r := m.recordAutoFixOnSave
  let rv := Migration.recordValidate cfg r.1 r.2
  (rv.1.recordWorkingDirectories, rv.2)

/-- Embeds Migration.record (lines 512-516). -/
def Migration.record (cfg : ConfigSnapshot) (m : Migration) : Migration :=
  (Migration.recordWithLog cfg m).1

/-- Embeds Migration.needsUpdate (lines 643-657): the four families'
flags, then every value of the per-language cache. -/
def Migration.needsUpdate (m : Migration) : Bool :=
  MigrationData.needsUpdate m.autoFixOnSave ||
  MigrationData.needsUpdate m.validate ||
  MigrationData.needsUpdate m.codeActionOnSave ||
  MigrationData.needsUpdate m.workingDirectories ||
  m.languageSpecificSettings.any (fun p => MigrationData.needsUpdate p.2)

/-- The three WorkspaceConfiguration objects a write of Migration.update
can target (lines 683-706): the editor-scoped configuration, the
linter-scoped configuration and the unscoped workspace configuration. -/
inductive ConfigStore
  | editor
  | eslint
  | workspace
deriving DecidableEq, Repr

/-- The value carried by one configuration write of Migration.update. -/
inductive ConfigValue
  | codeActions (v : Option CodeActionsOnSave)
  | boolVal (v : Option Bool)
  | validateVal (v : Option (List ValidateEntry))
  | workingDirsVal (v : Option (List WorkingDirEntry))
  | languageVal (v : LanguageSettings)
deriving DecidableEq, Repr

/-- One call of config.update(section, value, target) issued by
Migration.update. -/
structure WriteOp where
  store : ConfigStore
  sectionName : String
  value : ConfigValue
  target : Tier
deriving DecidableEq, Repr

/-- Embeds the nested helper update of Migration.update (lines 660-665):
a write is issued only when the element is marked changed. -/
def updateOp {T : Type} (store : ConfigStore) (sectionName : String)
    (toVal : Option T → ConfigValue) (newValue : MigrationElement T) (target : Tier) :
    List WriteOp :=
  if newValue.changed = true then
    [{ store := store, sectionName := sectionName, value := toVal newValue.value, target := target }]
  else []

/-- The three tier writes of one setting family, in the fixed order
global, workspace, workspaceFolder of lines 683-697. -/
def updateFamily {T : Type} (store : ConfigStore) (sectionName : String)
    (toVal : Option T → ConfigValue) (d : MigrationData T) : List WriteOp :=
  updateOp store sectionName toVal d.global Tier.global ++
  updateOp store sectionName toVal d.workspace Tier.workspace ++
  updateOp store sectionName toVal d.workspaceFolder Tier.workspaceFolder

/-- Embeds the nested helper updateLanguageSetting of Migration.update
(lines 667-680): when the element is changed, the current value of the
per-language section (re-read from the store at update time) has its
embedded editor.codeActionsOnSave replaced by the new value and is written
back. -/
def updateLanguageOp (sectionName : String) (settings : Option LanguageSettings)
    (newValue : MigrationElement CodeActionsOnSave) (target : Tier) : List WriteOp :=
  if newValue.changed = true then
    let s := settings.getD { editorCodeActionsOnSave := none }
    [{ store := ConfigStore.workspace, sectionName := sectionName,
       value := ConfigValue.languageVal { s with editorCodeActionsOnSave := newValue.value },
       target := target }]
  else []

/-- The writes of one per-language entry of Migration.update (lines
699-708): skipped entirely when no tier of the entry is changed; otherwise
the current inspect result is re-read and the three tiers are written.
Like ConfigSnapshot.languageSections, the current function is keyed by the
language id from which the source builds the section string. -/
def updateLanguage (current : String → Option (InspectData LanguageSettings))
    (language : String) (value : MigrationData CodeActionsOnSave) : List WriteOp :=
  if MigrationData.needsUpdate value = true then
    updateLanguageOp ("[" ++ language ++ "]")
      ((current language).bind fun i => i.globalValue) value.global Tier.global ++
    updateLanguageOp ("[" ++ language ++ "]")
      ((current language).bind fun i => i.workspaceValue) value.workspace Tier.workspace ++
    updateLanguageOp ("[" ++ language ++ "]")
      ((current language).bind fun i => i.workspaceFolderValue) value.workspaceFolder Tier.workspaceFolder
  else []

/-- The sequence of configuration writes Migration.update issues (lines
682-708), in their fixed order: editor codeActionsOnSave, then the three
linter families, then the per-language sections in cache order. -/
def Migration.updateOps (m : Migration)
    (current : String → Option (InspectData LanguageSettings)) : List WriteOp :=
  updateFamily ConfigStore.editor "codeActionsOnSave" ConfigValue.codeActions m.codeActionOnSave ++
  updateFamily ConfigStore.eslint "autoFixOnSave" ConfigValue.boolVal m.autoFixOnSave ++
  updateFamily ConfigStore.eslint "validate" ConfigValue.validateVal m.validate ++
  updateFamily ConfigStore.eslint "workingDirectories" ConfigValue.workingDirsVal m.workingDirectories ++
  m.languageSpecificSettings.foldl (fun acc p => acc ++ updateLanguage current p.1 p.2) []

/-- Runs the writes in order against a store in which each write either
succeeds or raises the given error; the first raised error aborts the
remaining writes and propagates, embedding the await semantics of the try
block of Migration.update. -/
def runWrites (fail : WriteOp → Option String) : List WriteOp → Except String Unit
  | [] => Except.ok ()
  | op :: rest =>
    match fail op with
    | some e => Except.error e
    | none => runWrites fail rest

/-- The Migration together with its registered configuration-changed
continuation (field didChangeConfiguration of lines 499 and 518-520),
modelled as present or absent. -/
structure MigrationCtl where
  state : Migration
  didChangeConfiguration : Option Unit

/-- Embeds Migration.captureDidChangeSetting (lines 518-520). -/
def MigrationCtl.captureDidChangeSetting (m : MigrationCtl) : MigrationCtl :=
  { m with didChangeConfiguration := some () }

/-- The observable outcome of one call of Migration.update: the result of
the try block (the first write error propagates to the caller), the number
of times the registered continuation was invoked by the finally block, and
the instance state afterwards. -/
structure MigrationRun where
  result : Except String Unit
  invocations : Nat
  post : MigrationCtl

/-- Embeds Migration.update (lines 659-715): the writes of updateOps run
until the first failure, and the finally block (lines 709-714) then runs
exactly once — whether the try block completed or raised — invoking the
continuation when one is registered and clearing the registration. -/
def MigrationCtl.update (m : MigrationCtl)
    (current : String → Option (InspectData LanguageSettings))
    (fail : WriteOp → Option String) : MigrationRun :=
  let ops := m.state.updateOps current
  { result := runWrites fail ops
    invocations := if m.didChangeConfiguration.isSome then 1 else 0
    post := { m with didChangeConfiguration := none } }

/-- The tri-state outcome of the validation gate (enum Validate,
lines 147-151). -/
inductive Validate
  | on
  | off
  | probe
deriving DecidableEq, Repr

/-- The keys of the linter's resource-scoped configuration read by
computeValidate (lines 361-390): enable (default true), the validate list
and the probe list. -/
structure PatchedConfig where
  enable : Option Bool
  validate : Option (List ValidateEntry)
  probe : Option (List String)

/-- A text document as computeValidate sees it: its uri (already
stringified) and its language id. -/
structure TextDocument where
  uri : String
  languageId : String

/-- Embeds the validate-list scan of computeValidate (lines 368-376): a
bare string entry matches when equal to the language id, a record entry
when its language field is. -/
def validateListMatches (languageId : String) (validate : Option (List ValidateEntry)) : Bool :=
  match validate with
  | some items => items.any fun item =>
      match item with
      | ValidateEntry.str s => s == languageId
      | ValidateEntry.item l _ => l == languageId
  | none => false

/-- Embeds the probe-list scan of computeValidate (lines 381-388). -/
def probeListMatches (languageId : String) (probe : Option (List String)) : Bool :=
  match probe with
  | some items => items.any fun item => item == languageId
  | none => false

/-- Embeds computeValidate (lines 361-390): a pure function of the
resource-scoped configuration, the process-wide probe-failed set (modelled
as a list of uris) and the document.  The branches are evaluated in the
source's order: enable, validate list, probe-failed membership, probe
list, default off. -/
def computeValidate (getConfig : String → PatchedConfig) (probeFailed : List String)
    (doc : TextDocument) : Validate :=
  let config := getConfig doc.uri
  if config.enable.getD true = false then Validate.off
  else if validateListMatches doc.languageId config.validate = true then Validate.on
  else if probeFailed.any (fun u => u == doc.uri) = true then Validate.off
  else if probeListMatches doc.languageId config.probe = true then Validate.probe
  else Validate.off

/-- Embeds the probe-failed request handler (lines 1272-1280) restricted
to its effect on the probe-failed set: the document uri is added.  The
handler's remaining effect (re-closing the document's sync state) targets
the language client only. -/
def onProbeFailed (probeFailed : List String) (uri : String) : List String :=
  probeFailed.insert uri

/-- Embeds the effect of the workspace configuration-change listener
(lines 836-850) on the probe-failed set: it is cleared.  The listener's
re-synchronization of open documents targets the language client only. -/
def onDidChangeConfigurationClear (_probeFailed : List String) : List String := []

/-- Embeds the effect of the didChangeWatchedFile middleware (lines
946-950) on the probe-failed set: it is cleared before the event is
forwarded. -/
def didChangeWatchedFileClear (_probeFailed : List String) : List String := []

/-- The prefix test of JS String.prototype.startsWith, modelled on the
character list of the string. -/
def strStartsWith (s p : String) : Bool := List.isPrefixOf p.data s.data

/-- The trailing-text test used for the separator checks (charAt of the
last position in the source), modelled on the character list. -/
def strEndsWith (s p : String) : Bool := List.isSuffixOf p.data s.data

/-- Modelled from the spec: toOSPath and toPosixPath live in utils.ts,
which is not under src/.  On a POSIX platform both are the identity on
path strings, which is the platform modelled here. -/
def toOSPath (p : String) : String := p

/-- Modelled from the spec: POSIX flavour of node's path.isAbsolute for
the path shapes the working-directory entries hold. -/
def pathIsAbsolute (p : String) : Bool := strStartsWith p "/"

/-- Modelled from the spec: POSIX flavour of node's path.join for joining
a workspace folder path with a relative directory or pattern (no
normalization of dot segments, which the resolution does not rely on). -/
def pathJoin (a b : String) : String :=
  if strEndsWith a "/" then a ++ b else a ++ "/" ++ b

/-- Embeds the directory branch of the working-directory loop (lines
1092-1102): the directory is converted to an OS path, joined onto the
workspace folder when relative, given a trailing separator, and matches
when it is a prefix of the file path. -/
def wdDirectoryMatch (workspaceFolderPath : Option String) (filePath : String)
    (directory : String) : Option String :=
  let d0 := toOSPath directory
  let d1 :=
    if pathIsAbsolute d0 = false then
      match workspaceFolderPath with
      | some w => pathJoin w d0
      | none => d0
    else d0
  let d2 := if strEndsWith d1 "/" then d1 else d1 ++ "/"
  if strStartsWith filePath d2 then some d2 else none

/-- Embeds the pattern branch of the working-directory loop (lines
1103-1117).  Modelled from the spec: convert2RegExp lives in utils.ts,
which is not under src/; the compiled regular expression and its exec are
abstracted as the function pexec from the normalized pattern and the file
path to the matched text (none covering both a failed compilation and a
non-match). -/
def wdPatternMatch (pexec : String → String → Option String)
    (workspaceFolderPath : Option String) (filePath : String) (p : String) : Option String :=
  if p.length > 0 then
    let p1 :=
      if pathIsAbsolute p = false then
        match workspaceFolderPath with
        | some w => pathJoin (toOSPath w) p
        | none => p
      else p
    let p2 := if strEndsWith p1 "/" then p1 else p1 ++ "/"
    pexec p2 filePath
  else none

/-- The value the working-directory loop computes for one non-mode entry
(lines 1064-1119): the matched directory or pattern text paired with the
entry's cwd-suppression flag, or none when the entry does not match or the
document has no file path. -/
def wdEntryMatch (pexec : String → String → Option String)
    (workspaceFolderPath : Option String) (filePath : Option String)
    (entry : WorkingDirEntry) : Option (String × Bool) :=
  match filePath with
  | none => none
  | some fp =>
    match entry with
    | WorkingDirEntry.mode _ => none
    | WorkingDirEntry.str s => (wdDirectoryMatch workspaceFolderPath fp s).map fun v => (v, false)
    | WorkingDirEntry.legacy d cpc =>
      (wdDirectoryMatch workspaceFolderPath fp d).map fun v => (v, !cpc)
    | WorkingDirEntry.dir d c =>
      (wdDirectoryMatch workspaceFolderPath fp d).map fun v => (v, c.getD false)
    | WorkingDirEntry.pat p c =>
      (wdPatternMatch pexec workspaceFolderPath fp p).map fun v => (v, c.getD false)

/-- The running value of the working-directory scan: either a mode entry
retained verbatim or the currently selected directory match (the source
stores a ModeItem or a DirectoryItem, lines 1062 and 1120-1129). -/
inductive WorkingDirResult
  | mode (m : ModeEnum)
  | dir (directory : String) (noCwd : Bool)
deriving DecidableEq, Repr

/-- Embeds lines 1120-1129: a match replaces the running value when none
is selected yet or a mode entry is selected; against a selected directory
it replaces it only when the matched text is strictly longer. -/
def wdApplyMatch (m : Option (String × Bool)) (acc : Option WorkingDirResult) :
    Option WorkingDirResult :=
  match m with
  | none => acc
  | some (itemValue, noCWD) =>
    match acc with
    | none => some (WorkingDirResult.dir itemValue noCWD)
    | some (WorkingDirResult.mode _) => some (WorkingDirResult.dir itemValue noCWD)
    | some (WorkingDirResult.dir d nc) =>
      if d.length < itemValue.length then some (WorkingDirResult.dir itemValue noCWD)
      else some (WorkingDirResult.dir d nc)

/-- One iteration of the working-directory loop (lines 1064-1130): a mode
entry unconditionally becomes the running value (lines 1083-1086); any
other entry contributes its match. -/
def wdStep (pexec : String → String → Option String) (workspaceFolderPath : Option String)
    (filePath : Option String) (acc : Option WorkingDirResult) (entry : WorkingDirEntry) :
    Option WorkingDirResult :=
  match entry with
  | WorkingDirEntry.mode m => some (WorkingDirResult.mode m)
  | e => wdApplyMatch (wdEntryMatch pexec workspaceFolderPath filePath e) acc

/-- Embeds the single left-to-right scan of the configured
workingDirectories list in the configuration middleware (lines
1060-1131). -/
def resolveWorkingDirectory (pexec : String → String → Option String)
    (workspaceFolderPath : Option String) (filePath : Option String)
    (entries : List WorkingDirEntry) : Option WorkingDirResult :=
  entries.foldl (wdStep pexec workspaceFolderPath filePath) none

/-- The matched values of the configured entries, in list order. -/
def wdMatches (pexec : String → String → Option String)
    (workspaceFolderPath : Option String) (filePath : Option String)
    (entries : List WorkingDirEntry) : List (String × Bool) :=
  entries.filterMap (wdEntryMatch pexec workspaceFolderPath filePath)

/-- Whether a working-directory entry is a mode item. -/
def WorkingDirEntry.isMode : WorkingDirEntry → Bool
  | WorkingDirEntry.mode _ => true
  | _ => false

/-- Follows the spec's words for the claimed per-tier result formula of
the auto-fix-on-save migration: the linter-specific flag when defined,
otherwise the generic fix-all flag. -/
def fixAllResultClaim (setting : MigrationElement CodeActionsOnSave) : Bool :=
  (setting.value.bind fun v => v.sourceFixAllPatched).getD
    ((setting.value.bind fun v => v.sourceFixAll).getD false)

/-- Follows the amended claim's words for the per-tier result of the
auto-fix-on-save migration: false under an explicit opt-out; true when the
migration branch fires (legacy auto-fix truthy, differing from the generic
flag, linter-specific flag unset); otherwise the generic fix-all flag — a
pre-existing true linter-specific flag is ignored. -/
def fixAllResultAmended (elem : MigrationElement Bool)
    (setting : MigrationElement CodeActionsOnSave) : Bool :=
  let flag := setting.value.bind fun v => v.sourceFixAllPatched
  let generic := (setting.value.bind fun v => v.sourceFixAll).getD false
  let autoFix := elem.value.getD false
  if flag = some false then false
  else if autoFix = true ∧ generic = false ∧ flag = none then true
  else generic

/-- A configuration snapshot in which every inspect returns undefined. -/
def cfgEmpty : ConfigSnapshot :=
  { codeActionsOnSave := none, autoFixOnSave := none, validate := none,
    workingDirectories := none, languageSections := fun _ => none }

/-- The tier's codeActionsOnSave value used by the opt-out witness. -/
def caosOptOut : CodeActionsOnSave :=
  { sourceFixAll := some true, sourceFixAllPatched := some false, other := [] }

/-- A snapshot whose global tier carries an explicit false linter-specific
flag next to a legacy autoFixOnSave true. -/
def cfgOptOut : ConfigSnapshot :=
  { codeActionsOnSave := some
      { globalValue := some caosOptOut, workspaceValue := none, workspaceFolderValue := none }
    autoFixOnSave := some
      { globalValue := some true, workspaceValue := none, workspaceFolderValue := none }
    validate := none, workingDirectories := none
    languageSections := fun _ => none }

/-- The snapshot of the C1 counterexample: a global generic fix-all true
makes the cascade active without marking any element changed, the validate
list demotes javascript, and the inspect of every per-language section
returns undefined. -/
def cfgUncachedLanguage : ConfigSnapshot :=
  { codeActionsOnSave := some
      { globalValue := some { sourceFixAll := some true, sourceFixAllPatched := none, other := [] },
        workspaceValue := none, workspaceFolderValue := none }
    autoFixOnSave := none
    validate := some
      { globalValue := some [ValidateEntry.item "javascript" (some false)],
        workspaceValue := none, workspaceFolderValue := none }
    workingDirectories := none
    languageSections := fun _ => none }

/-- Follows the amended claim's words for the per-language flag mutation:
unless the element's linter-specific flag is already false, the value
(normalized to an object) gets the flag set to false and the element is
marked changed. -/
def migrateLanguageFlagSpec (e : MigrationElement CodeActionsOnSave) :
    MigrationElement CodeActionsOnSave :=
  if (e.value.bind fun v => v.sourceFixAllPatched) = some false then e
  else
    { changed := true,
      value := some { (e.value.getD CodeActionsOnSave.empty) with sourceFixAllPatched := some false } }

/-- Follows the amended claim's words for the per-entry behaviour of the
validate migration: bare strings and entries that do not explicitly set
autoFix false, or tiers whose cascade is inactive, change nothing; a
triggering entry mutates the cached data when present, else caches a newly
created data built from the section's inspect snapshot, else — when the
inspect returns undefined — mutates a fresh data that is discarded
(ghost-logged) instead of cached. -/
def recordValidateItemSpec (cfg : ConfigSnapshot) (tier : Tier) (fixAll : Bool)
    (s : LangCache) (item : ValidateEntry) : LangCache :=
  match item with
  | ValidateEntry.str _ => s
  | ValidateEntry.item language autoFix =>
    if fixAll = true ∧ autoFix = some false then
      match lookupEntry s.cache language, cfg.languageSections language with
      | some data, _ =>
        let data' := data.set tier (migrateLanguageFlagSpec (data.get tier))
        { s with cache := updateEntry s.cache language data' }
      | none, some i =>
        let data := languageMigrationData i
        let data' := data.set tier (migrateLanguageFlagSpec (data.get tier))
        { s with cache := s.cache ++ [(language, data')] }
      | none, none =>
        let data : MigrationData CodeActionsOnSave := MigrationData.create none
        let data' := data.set tier (migrateLanguageFlagSpec (data.get tier))
        { s with lost := s.lost ++ [(language, data')] }
    else s

/-- The snapshot of the C4 counterexample: the legacy global autoFixOnSave
true makes the cascade active, the validate list contains a bare string, a
demoting typescript entry and a non-demoting python entry, and the inspect
of every per-language section returns undefined. -/
def cfgUncachedTypescript : ConfigSnapshot :=
  { codeActionsOnSave := none
    autoFixOnSave := some
      { globalValue := some true, workspaceValue := none, workspaceFolderValue := none }
    validate := some
      { globalValue := some
          [ValidateEntry.str "vue", ValidateEntry.item "typescript" (some false),
           ValidateEntry.item "python" (some true)],
        workspaceValue := none, workspaceFolderValue := none }
    workingDirectories := none
    languageSections := fun _ => none }

/-- A snapshot whose only legacy setting is a global autoFixOnSave true,
so record() marks exactly the editor codeActionsOnSave global tier. -/
def cfgAutoFixGlobal : ConfigSnapshot :=
  { codeActionsOnSave := none
    autoFixOnSave := some
      { globalValue := some true, workspaceValue := none, workspaceFolderValue := none }
    validate := none, workingDirectories := none
    languageSections := fun _ => none }

/-- The codeActionsOnSave value the migration writes at cfgAutoFixGlobal. -/
def caosMigratedGlobal : CodeActionsOnSave :=
  { sourceFixAll := none, sourceFixAllPatched := some true, other := [] }

/-- The single write op update() issues at cfgAutoFixGlobal. -/
def wopAutoFixGlobal : WriteOp :=
  { store := ConfigStore.editor, sectionName := "codeActionsOnSave",
    value := ConfigValue.codeActions (some caosMigratedGlobal), target := Tier.global }

/- Helper lemmas shared by the claim theorems. -/

lemma create_get_changed {T : Type} (i : Option (InspectData T)) (t : Tier) :
    ((MigrationData.create i).get t).changed = false := by
  cases i <;> cases t <;> rfl

lemma recordAutoFixOnSaveTier_opt_out (elem : MigrationElement Bool)
    (setting : MigrationElement CodeActionsOnSave) (v : CodeActionsOnSave)
    (hval : setting.value = some v) (hflag : v.sourceFixAllPatched = some false) :
    recordAutoFixOnSaveTier elem setting = (setting, false) := by
  unfold recordAutoFixOnSaveTier
  rw [hval]
  simp [hflag]

lemma record_codeActionOnSave_eq (cfg : ConfigSnapshot) (m : Migration) :
    (Migration.record cfg m).codeActionOnSave = m.recordAutoFixOnSave.1.codeActionOnSave := rfl

lemma recordAutoFixOnSaveTier_result (elem : MigrationElement Bool)
    (setting : MigrationElement CodeActionsOnSave) :
    (recordAutoFixOnSaveTier elem setting).2 = fixAllResultAmended elem setting := by
  rcases setting with ⟨c, v⟩
  rcases v with _ | ⟨fa, fp, o⟩
  · rcases elem with ⟨ce, ve⟩
    rcases ve with _ | b
    · rfl
    · cases b <;> rfl
  · rcases elem with ⟨ce, ve⟩
    rcases ve with _ | b
    · rcases fa with _ | fab <;> rcases fp with _ | fpb
      · rfl
      · cases fpb <;> rfl
      · cases fab <;> rfl
      · cases fab <;> cases fpb <;> rfl
    · rcases fa with _ | fab <;> rcases fp with _ | fpb
      · cases b <;> rfl
      · cases b <;> cases fpb <;> rfl
      · cases b <;> cases fab <;> rfl
      · cases b <;> cases fab <;> cases fpb <;> rfl

lemma recordValidate_cascade (cfg : ConfigSnapshot) (m : Migration) (g w f : Bool) :
    Migration.recordValidate cfg m (g, w, f)
      = Migration.recordValidate cfg m (g, w || g, f || (w || g)) := by
  cases g <;> cases w <;> cases f <;> rfl

lemma runWrites_ok (fail : WriteOp → Option String) :
    ∀ ops : List WriteOp, (∀ op ∈ ops, fail op = none) → runWrites fail ops = Except.ok () := by
  intro ops
  induction ops with
  | nil => intro _; rfl
  | cons op rest ih =>
    intro h
    have hop := h op (by simp)
    simp only [runWrites, hop]
    exact ih fun o ho => h o (by simp [ho])

lemma any_beq_insert_self (l : List String) (u : String) :
    ((l.insert u).any fun x => x == u) = true := by
  simp only [List.any_eq_true]
  exact ⟨u, List.mem_insert_self u l, by simp⟩

lemma any_beq_iff (l : List String) (a : String) :
    ((l.any fun u => u == a) = true) ↔ a ∈ l := by
  simp only [List.any_eq_true, beq_iff_eq]
  constructor
  · rintro ⟨x, hx, rfl⟩; exact hx
  · intro h; exact ⟨a, h, rfl⟩


/-- Claim C2 (confirmed): for every tier, when the tier's codeActionsOnSave
value has the linter-specific flag explicitly set to false before
migration, record() leaves the tier's element untouched — the flag stays
false, the value is not modified in any way and the changed flag is not
set. -/
theorem record_explicit_opt_out_wins (cfg : ConfigSnapshot) (t : Tier) (v : CodeActionsOnSave)
    (hval : ((Migration.create cfg).codeActionOnSave.get t).value = some v)
    (hflag : v.sourceFixAllPatched = some false) :
    (Migration.record cfg (Migration.create cfg)).codeActionOnSave.get t
        = (Migration.create cfg).codeActionOnSave.get t
    ∧ ((Migration.record cfg (Migration.create cfg)).codeActionOnSave.get t).value = some v
    ∧ ((Migration.record cfg (Migration.create cfg)).codeActionOnSave.get t).changed = false := by
  have hmain : (Migration.record cfg (Migration.create cfg)).codeActionOnSave.get t
      = (Migration.create cfg).codeActionOnSave.get t := by
    rw [record_codeActionOnSave_eq]
    cases t with
    | global =>
      have h := recordAutoFixOnSaveTier_opt_out (Migration.create cfg).autoFixOnSave.global
        (Migration.create cfg).codeActionOnSave.global v hval hflag
      simp [Migration.recordAutoFixOnSave, MigrationData.get, h]
    | workspace =>
      have h := recordAutoFixOnSaveTier_opt_out (Migration.create cfg).autoFixOnSave.workspace
        (Migration.create cfg).codeActionOnSave.workspace v hval hflag
      simp [Migration.recordAutoFixOnSave, MigrationData.get, h]
    | workspaceFolder =>
      have h := recordAutoFixOnSaveTier_opt_out (Migration.create cfg).autoFixOnSave.workspaceFolder
        (Migration.create cfg).codeActionOnSave.workspaceFolder v hval hflag
      simp [Migration.recordAutoFixOnSave, MigrationData.get, h]
  refine ⟨hmain, ?_, ?_⟩
  · rw [hmain]; exact hval
  · rw [hmain]; exact create_get_changed cfg.codeActionsOnSave t

/-- Witness for record_explicit_opt_out_wins at a concrete snapshot whose
global codeActionsOnSave carries an explicit false linter-specific flag. -/
theorem record_explicit_opt_out_wins_witness :
    ((Migration.create cfgOptOut).codeActionOnSave.get Tier.global).value = some caosOptOut
    ∧ caosOptOut.sourceFixAllPatched = some false
    ∧ ((Migration.record cfgOptOut (Migration.create cfgOptOut)).codeActionOnSave.get
        Tier.global).changed = false :=
  ⟨rfl, rfl, (record_explicit_opt_out_wins cfgOptOut Tier.global caosOptOut rfl rfl).2.2⟩

/-- Claim C3 (counterexample): with the linter-specific flag pre-set to
true and autoFixOnSave unset, the claimed formula linterSpecificFlag ??
genericFixAll yields true, but the code's per-tier result is the generic
flag, false. -/
theorem fixAll_result_claim_counterexample :
    (recordAutoFixOnSaveTier { changed := false, value := none }
        { changed := false,
          value := some { sourceFixAll := none, sourceFixAllPatched := some true, other := [] } }).2
      = false
    ∧ fixAllResultClaim
        { changed := false,
          value := some { sourceFixAll := none, sourceFixAllPatched := some true, other := [] } }
      = true := ⟨rfl, rfl⟩

/-- Claim C3 (amended): the per-tier result of the auto-fix-on-save
migration is false under an explicit opt-out, true when the migration
branch fires, and otherwise the generic fix-all flag (a pre-existing true
linter-specific flag is ignored); and the cascade inputs actually used by
the validate migration are the workspace result or-else the global one,
and the workspace-folder result or-else that inherited value. -/
theorem fixAll_result_and_cascade_amended :
    (∀ (elem : MigrationElement Bool) (setting : MigrationElement CodeActionsOnSave),
      (recordAutoFixOnSaveTier elem setting).2 = fixAllResultAmended elem setting)
    ∧ (∀ (cfg : ConfigSnapshot) (m : Migration) (g w f : Bool),
      Migration.recordValidate cfg m (g, w, f)
        = Migration.recordValidate cfg m (g, w || g, f || (w || g))) :=
  ⟨recordAutoFixOnSaveTier_result, recordValidate_cascade⟩

/-- Claim C5 (confirmed): computeValidate evaluates, in order: off when
enable is false for the document's resource; on when the language id
matches the validate list (even for a probe-failed uri); off when the uri
is in the probe-failed set; probe when the language id is in the probe
list; off otherwise.  It is a pure function of its arguments. -/
theorem computeValidate_cases (g : String → PatchedConfig) (pf : List String)
    (doc : TextDocument) :
    (computeValidate g pf doc = Validate.on ↔
      ((g doc.uri).enable.getD true = true
        ∧ validateListMatches doc.languageId (g doc.uri).validate = true))
    ∧ (computeValidate g pf doc = Validate.probe ↔
      ((g doc.uri).enable.getD true = true
        ∧ validateListMatches doc.languageId (g doc.uri).validate = false
        ∧ (pf.any fun u => u == doc.uri) = false
        ∧ probeListMatches doc.languageId (g doc.uri).probe = true))
    ∧ (computeValidate g pf doc = Validate.off ↔
      ((g doc.uri).enable.getD true = false
        ∨ (validateListMatches doc.languageId (g doc.uri).validate = false
          ∧ ((pf.any fun u => u == doc.uri) = true
            ∨ probeListMatches doc.languageId (g doc.uri).probe = false)))) := by
  simp only [computeValidate]
  split_ifs with h1 h2 h3 h4 <;> simp_all [any_beq_iff]
  exact fun x hx hxa => h3 (hxa ▸ hx)

/-- Claim C6 (confirmed): after the probe-failed handler adds the
document's uri, computeValidate returns off for that document whenever the
validate list does not match it (even when its language id is in the probe
list); the configuration-change listener and the watched-file middleware
clear the set, after which the outcome is computed fresh — probe again
when the probe conditions hold. -/
theorem probe_failed_memory_temporal (g : String → PatchedConfig) (S : List String)
    (doc : TextDocument)
    (hnm : validateListMatches doc.languageId (g doc.uri).validate = false) :
    computeValidate g (onProbeFailed S doc.uri) doc = Validate.off
    ∧ onDidChangeConfigurationClear S = []
    ∧ didChangeWatchedFileClear S = []
    ∧ ((g doc.uri).enable.getD true = true →
       probeListMatches doc.languageId (g doc.uri).probe = true →
       computeValidate g (onDidChangeConfigurationClear S) doc = Validate.probe) := by
  refine ⟨?_, rfl, rfl, ?_⟩
  · simp only [computeValidate, onProbeFailed]
    split_ifs with h1 h2 h3 h4
    · rfl
    · rw [hnm] at h2; exact absurd h2 (by simp)
    · rfl
    · exact absurd (any_beq_insert_self S doc.uri) h3
    · exact absurd (any_beq_insert_self S doc.uri) h3
  · intro hE hP
    simp [computeValidate, onDidChangeConfigurationClear, hE, hnm, hP]

/-- Witness for probe_failed_memory_temporal: a javascript document whose
configuration has an empty validate list and javascript in the probe
list. -/
theorem probe_failed_memory_temporal_witness :
    computeValidate (fun _ => { enable := some true, validate := some [], probe := some ["javascript"] })
        (onProbeFailed [] "file:///x.js")
        { uri := "file:///x.js", languageId := "javascript" } = Validate.off
    ∧ onDidChangeConfigurationClear ([] : List String) = []
    ∧ didChangeWatchedFileClear ([] : List String) = []
    ∧ ((({ enable := some true, validate := some [], probe := some ["javascript"] } : PatchedConfig).enable.getD true) = true →
       probeListMatches "javascript" (some ["javascript"]) = true →
       computeValidate (fun _ => { enable := some true, validate := some [], probe := some ["javascript"] })
        (onDidChangeConfigurationClear [])
        { uri := "file:///x.js", languageId := "javascript" } = Validate.probe) :=
  probe_failed_memory_temporal
    (fun _ => { enable := some true, validate := some [], probe := some ["javascript"] })
    [] { uri := "file:///x.js", languageId := "javascript" } rfl

lemma needsUpdate_iff (m : Migration) :
    m.needsUpdate = true ↔
      (MigrationData.needsUpdate m.autoFixOnSave = true
       ∨ MigrationData.needsUpdate m.validate = true
       ∨ MigrationData.needsUpdate m.codeActionOnSave = true
       ∨ MigrationData.needsUpdate m.workingDirectories = true
       ∨ ∃ p ∈ m.languageSpecificSettings, MigrationData.needsUpdate p.2 = true) := by
  simp [Migration.needsUpdate, List.any_eq_true]
  tauto

lemma lost_of_recordValidateItem (cfg : ConfigSnapshot) (tier : Tier) (fixAll : Bool)
    (s : LangCache) (item : ValidateEntry) :
    ∀ p ∈ (recordValidateItem cfg tier fixAll s item).lost,
      p ∈ s.lost ∨ cfg.languageSections p.1 = none := by
  intro p hp
  cases item with
  | str _ => exact Or.inl hp
  | item language autoFix =>
    simp only [recordValidateItem] at hp
    by_cases hc : fixAll = true ∧ autoFix = some false
    · rw [if_pos hc] at hp
      rcases hl : lookupEntry s.cache language with _ | data
      · simp only [hl] at hp
        rcases hsec : cfg.languageSections language with _ | i
        · simp only [hsec] at hp
          rcases List.mem_append.mp hp with h | h
          · exact Or.inl h
          · have hpe := List.mem_singleton.mp h
            rw [hpe]
            exact Or.inr hsec
        · simp only [hsec] at hp
          exact Or.inl hp
      · simp only [hl] at hp
        exact Or.inl hp
    · rw [if_neg hc] at hp
      exact Or.inl hp

lemma lost_of_foldl (cfg : ConfigSnapshot) (tier : Tier) (fixAll : Bool) :
    ∀ (items : List ValidateEntry) (s : LangCache),
    ∀ p ∈ (items.foldl (recordValidateItem cfg tier fixAll) s).lost,
      p ∈ s.lost ∨ cfg.languageSections p.1 = none := by
  intro items
  induction items with
  | nil => intro s p hp; exact Or.inl hp
  | cons it rest ih =>
    intro s p hp
    rw [List.foldl_cons] at hp
    rcases ih (recordValidateItem cfg tier fixAll s it) p hp with h | h
    · exact lost_of_recordValidateItem cfg tier fixAll s it p h
    · exact Or.inr h

lemma lost_of_recordValidateTier (cfg : ConfigSnapshot) (tier : Tier) (fixAll : Bool)
    (elem : MigrationElement (List ValidateEntry)) (s : LangCache) :
    ∀ p ∈ (recordValidateTier cfg tier fixAll elem s).lost,
      p ∈ s.lost ∨ cfg.languageSections p.1 = none := by
  intro p hp
  unfold recordValidateTier at hp
  rcases hv : elem.value with _ | items
  · rw [hv] at hp; exact Or.inl hp
  · rw [hv] at hp; exact lost_of_foldl cfg tier fixAll items s p hp

lemma lost_of_recordValidate (cfg : ConfigSnapshot) (m : Migration) (fixAll : Bool × Bool × Bool) :
    ∀ p ∈ (Migration.recordValidate cfg m fixAll).2, cfg.languageSections p.1 = none := by
  intro p hp
  have hp' : p ∈ (recordValidateTier cfg Tier.workspaceFolder
      (if fixAll.2.2 = true then fixAll.2.2 else (if fixAll.2.1 = true then fixAll.2.1 else fixAll.1))
      m.validate.workspaceFolder
      (recordValidateTier cfg Tier.workspace
        (if fixAll.2.1 = true then fixAll.2.1 else fixAll.1) m.validate.workspace
        (recordValidateTier cfg Tier.global fixAll.1 m.validate.global
          { cache := m.languageSpecificSettings, lost := [] }))).lost := hp
  rcases lost_of_recordValidateTier _ _ _ _ _ p hp' with h | h
  · rcases lost_of_recordValidateTier _ _ _ _ _ p h with h2 | h2
    · rcases lost_of_recordValidateTier _ _ _ _ _ p h2 with h3 | h3
      · simp at h3
      · exact h3
    · exact h2
  · exact h


/-- Claim C1 (counterexample): at cfgUncachedLanguage, record() sets the
changed flag of a lazily-created per-language MigrationElement (the ghost
log shows the created data with changed true), yet needsUpdate() returns
false — the data was never cached, so the change is invisible. -/
theorem needsUpdate_misses_uncached_language_counterexample :
    (Migration.recordWithLog cfgUncachedLanguage (Migration.create cfgUncachedLanguage)).1.needsUpdate
      = false
    ∧ ((Migration.recordWithLog cfgUncachedLanguage (Migration.create cfgUncachedLanguage)).2.any
        fun p => MigrationData.needsUpdate p.2) = true := ⟨rfl, rfl⟩

/-- Claim C1 (amended): needsUpdate() is true iff one of the four setting
families or one of the per-language MigrationData actually cached in
languageSpecificSettings has a changed tier; a per-language element
mutated during record() is visible only when the inspect of its section
returned a snapshot — every discarded (ghost-logged) per-language data
belongs to a language whose section inspect returned undefined. -/
theorem needsUpdate_iff_tracked_changed_amended (cfg : ConfigSnapshot) :
    ((Migration.recordWithLog cfg (Migration.create cfg)).1.needsUpdate = true ↔
      (MigrationData.needsUpdate
          (Migration.recordWithLog cfg (Migration.create cfg)).1.autoFixOnSave = true
       ∨ MigrationData.needsUpdate
          (Migration.recordWithLog cfg (Migration.create cfg)).1.validate = true
       ∨ MigrationData.needsUpdate
          (Migration.recordWithLog cfg (Migration.create cfg)).1.codeActionOnSave = true
       ∨ MigrationData.needsUpdate
          (Migration.recordWithLog cfg (Migration.create cfg)).1.workingDirectories = true
       ∨ ∃ p ∈ (Migration.recordWithLog cfg (Migration.create cfg)).1.languageSpecificSettings,
           MigrationData.needsUpdate p.2 = true))
    ∧ ∀ p ∈ (Migration.recordWithLog cfg (Migration.create cfg)).2,
        cfg.languageSections p.1 = none := by
  constructor
  · exact needsUpdate_iff _
  · intro p hp
    exact lost_of_recordValidate cfg _ _ p hp

/-- Witness for needsUpdate_iff_tracked_changed_amended at the empty
snapshot. -/
theorem needsUpdate_iff_tracked_changed_amended_witness :
    ((Migration.recordWithLog cfgEmpty (Migration.create cfgEmpty)).1.needsUpdate = true ↔
      (MigrationData.needsUpdate
          (Migration.recordWithLog cfgEmpty (Migration.create cfgEmpty)).1.autoFixOnSave = true
       ∨ MigrationData.needsUpdate
          (Migration.recordWithLog cfgEmpty (Migration.create cfgEmpty)).1.validate = true
       ∨ MigrationData.needsUpdate
          (Migration.recordWithLog cfgEmpty (Migration.create cfgEmpty)).1.codeActionOnSave = true
       ∨ MigrationData.needsUpdate
          (Migration.recordWithLog cfgEmpty (Migration.create cfgEmpty)).1.workingDirectories = true
       ∨ ∃ p ∈ (Migration.recordWithLog cfgEmpty (Migration.create cfgEmpty)).1.languageSpecificSettings,
           MigrationData.needsUpdate p.2 = true))
    ∧ ∀ p ∈ (Migration.recordWithLog cfgEmpty (Migration.create cfgEmpty)).2,
        cfgEmpty.languageSections p.1 = none :=
  needsUpdate_iff_tracked_changed_amended cfgEmpty



lemma mutateLanguageElement_eq_spec (e : MigrationElement CodeActionsOnSave) :
    mutateLanguageElement e = migrateLanguageFlagSpec e := by
  rcases e with ⟨c, v⟩
  rcases v with _ | v
  · rfl
  · by_cases h : v.sourceFixAllPatched = some false <;>
      simp [mutateLanguageElement, migrateLanguageFlagSpec, h]


/-- Claim C4 (counterexample): at cfgUncachedTypescript the global cascade
is active and the validate list holds a triggering typescript entry (the
ghost log shows exactly one discarded mutation), yet record() caches no
per-language MigrationData at all — the claimed lazily-creating-and-caching
lookup does not happen when the section's inspect returns undefined. -/
theorem validate_migration_uncached_counterexample :
    (Migration.record cfgUncachedTypescript (Migration.create cfgUncachedTypescript)).languageSpecificSettings
      = []
    ∧ (Migration.recordAutoFixOnSave (Migration.create cfgUncachedTypescript)).2.1 = true
    ∧ (Migration.recordWithLog cfgUncachedTypescript (Migration.create cfgUncachedTypescript)).2.length
      = 1 := ⟨rfl, rfl, rfl⟩

/-- Claim C4 (amended): each validate entry of a tier behaves exactly as
recordValidateItemSpec describes — bare strings and non-demoting entries
cause no per-language change, and a demoting entry under an active cascade
applies the flag mutation to the cached data, or caches a newly created
one, or — when the section's inspect returns undefined — mutates a fresh
data that is discarded instead of cached. -/
theorem recordValidateItem_spec_equiv (cfg : ConfigSnapshot) (tier : Tier) (fixAll : Bool)
    (s : LangCache) (item : ValidateEntry) :
    recordValidateItem cfg tier fixAll s item = recordValidateItemSpec cfg tier fixAll s item := by
  cases item with
  | str s' => rfl
  | item language autoFix =>
    simp only [recordValidateItem, recordValidateItemSpec]
    by_cases hc : fixAll = true ∧ autoFix = some false
    · rw [if_pos hc, if_pos hc]
      rcases hl : lookupEntry s.cache language with _ | data
      · rcases hsec : cfg.languageSections language with _ | i
        · simp [hl, hsec, mutateLanguageElement_eq_spec]
        · simp [hl, hsec, mutateLanguageElement_eq_spec]
      · simp [hl, mutateLanguageElement_eq_spec]
    · rw [if_neg hc, if_neg hc]

/-- Claim C9 (confirmed): when a configuration-changed continuation has
been registered, update() invokes it exactly once (the finally block runs
whether the writes succeed or raise, and the raised error still propagates
as the result), and a second update() on the resulting instance does not
invoke it again. -/
theorem update_invokes_continuation_exactly_once (m : MigrationCtl)
    (current : String → Option (InspectData LanguageSettings))
    (fail : WriteOp → Option String)
    (hreg : m.didChangeConfiguration = some ()) :
    (m.update current fail).invocations = 1
    ∧ ((m.update current fail).post.update current fail).invocations = 0
    ∧ (m.update current fail).result = runWrites fail (m.state.updateOps current)
    ∧ ((∀ op ∈ m.state.updateOps current, fail op = none) →
        (m.update current fail).result = Except.ok ()) := by
  refine ⟨?_, ?_, rfl, ?_⟩
  · simp [MigrationCtl.update, hreg]
  · simp [MigrationCtl.update]
  · intro h
    exact runWrites_ok fail _ h

/-- Witness for update_invokes_continuation_exactly_once on an instance
with a registered continuation and a store in which every write
succeeds. -/
theorem update_invokes_continuation_exactly_once_witness :
    ((MigrationCtl.captureDidChangeSetting
        { state := Migration.create cfgEmpty, didChangeConfiguration := none }).update
        (fun _ => none) (fun _ => none)).invocations = 1
    ∧ (((MigrationCtl.captureDidChangeSetting
        { state := Migration.create cfgEmpty, didChangeConfiguration := none }).update
        (fun _ => none) (fun _ => none)).post.update (fun _ => none) (fun _ => none)).invocations = 0
    ∧ ((MigrationCtl.captureDidChangeSetting
        { state := Migration.create cfgEmpty, didChangeConfiguration := none }).update
        (fun _ => none) (fun _ => none)).result
      = runWrites (fun _ => none)
          ((MigrationCtl.captureDidChangeSetting
            { state := Migration.create cfgEmpty, didChangeConfiguration := none }).state.updateOps
            (fun _ => none))
    ∧ ((∀ op ∈ (MigrationCtl.captureDidChangeSetting
          { state := Migration.create cfgEmpty, didChangeConfiguration := none }).state.updateOps
          (fun _ => none), (fun _ => none : WriteOp → Option String) op = none) →
       ((MigrationCtl.captureDidChangeSetting
          { state := Migration.create cfgEmpty, didChangeConfiguration := none }).update
          (fun _ => none) (fun _ => none)).result = Except.ok ()) :=
  update_invokes_continuation_exactly_once
    (MigrationCtl.captureDidChangeSetting
      { state := Migration.create cfgEmpty, didChangeConfiguration := none })
    (fun _ => none) (fun _ => none) rfl

lemma recordWorkingDirectoriesItem_id (elem : MigrationElement (List WorkingDirEntry))
    (item : WorkingDirEntry) : recordWorkingDirectoriesItem elem item = elem := by
  cases item <;> rfl

lemma foldl_recordWDItem_id :
    ∀ (items : List WorkingDirEntry) (elem : MigrationElement (List WorkingDirEntry)),
      items.foldl recordWorkingDirectoriesItem elem = elem := by
  intro items
  induction items with
  | nil => intro elem; rfl
  | cons it rest ih =>
    intro elem
    rw [List.foldl_cons, recordWorkingDirectoriesItem_id]
    exact ih elem

lemma recordWorkingDirectoriesTier_id (elem : MigrationElement (List WorkingDirEntry)) :
    recordWorkingDirectoriesTier elem = elem := by
  unfold recordWorkingDirectoriesTier
  rcases hv : elem.value with _ | items
  · rfl
  · exact foldl_recordWDItem_id items elem

lemma record_workingDirectories_eq (cfg : ConfigSnapshot) (m : Migration) :
    (Migration.record cfg m).workingDirectories = m.workingDirectories := by
  have h : (Migration.record cfg m).workingDirectories =
      { global := recordWorkingDirectoriesTier m.workingDirectories.global
        workspace := recordWorkingDirectoriesTier m.workingDirectories.workspace
        workspaceFolder := recordWorkingDirectoriesTier m.workingDirectories.workspaceFolder } := rfl
  rw [h, recordWorkingDirectoriesTier_id, recordWorkingDirectoriesTier_id,
    recordWorkingDirectoriesTier_id]

lemma mem_updateOp {T : Type} {st : ConfigStore} {sec : String} {toVal : Option T → ConfigValue}
    {e : MigrationElement T} {tg : Tier} {op : WriteOp} (h : op ∈ updateOp st sec toVal e tg) :
    op.store = st ∧ op.sectionName = sec := by
  unfold updateOp at h
  by_cases hc : e.changed = true
  · rw [if_pos hc] at h
    have he := List.mem_singleton.mp h
    rw [he]
    exact ⟨rfl, rfl⟩
  · rw [if_neg hc] at h
    simp at h

lemma mem_updateFamily {T : Type} {st : ConfigStore} {sec : String}
    {toVal : Option T → ConfigValue} {d : MigrationData T} {op : WriteOp}
    (h : op ∈ updateFamily st sec toVal d) : op.store = st ∧ op.sectionName = sec := by
  unfold updateFamily at h
  rcases List.mem_append.mp h with h' | h'
  · rcases List.mem_append.mp h' with h'' | h''
    · exact mem_updateOp h''
    · exact mem_updateOp h''
  · exact mem_updateOp h'

lemma updateFamily_unchanged {T : Type} (st : ConfigStore) (sec : String)
    (toVal : Option T → ConfigValue) {d : MigrationData T}
    (h1 : d.global.changed = false) (h2 : d.workspace.changed = false)
    (h3 : d.workspaceFolder.changed = false) : updateFamily st sec toVal d = [] := by
  simp [updateFamily, updateOp, h1, h2, h3]

lemma mem_updateLanguageOp {sec : String} {settings : Option LanguageSettings}
    {newValue : MigrationElement CodeActionsOnSave} {tg : Tier} {op : WriteOp}
    (h : op ∈ updateLanguageOp sec settings newValue tg) :
    op.store = ConfigStore.workspace ∧ op.sectionName = sec := by
  unfold updateLanguageOp at h
  by_cases hc : newValue.changed = true
  · rw [if_pos hc] at h
    have he := List.mem_singleton.mp h
    rw [he]
    exact ⟨rfl, rfl⟩
  · rw [if_neg hc] at h
    simp at h

lemma mem_updateLanguage {current : String → Option (InspectData LanguageSettings)}
    {lang : String} {d : MigrationData CodeActionsOnSave} {op : WriteOp}
    (h : op ∈ updateLanguage current lang d) :
    op.store = ConfigStore.workspace ∧ op.sectionName = "[" ++ lang ++ "]" := by
  unfold updateLanguage at h
  by_cases hc : MigrationData.needsUpdate d = true
  · rw [if_pos hc] at h
    rcases List.mem_append.mp h with h' | h'
    · rcases List.mem_append.mp h' with h'' | h''
      · exact mem_updateLanguageOp h''
      · exact mem_updateLanguageOp h''
    · exact mem_updateLanguageOp h'
  · rw [if_neg hc] at h
    simp at h

lemma mem_foldl_append {α β : Type} (f : α → List β) :
    ∀ (l : List α) (init : List β) (op : β),
      op ∈ l.foldl (fun acc p => acc ++ f p) init → op ∈ init ∨ ∃ p ∈ l, op ∈ f p := by
  intro l
  induction l with
  | nil => intro init op h; exact Or.inl h
  | cons a rest ih =>
    intro init op h
    rw [List.foldl_cons] at h
    rcases ih (init ++ f a) op h with h' | h'
    · rcases List.mem_append.mp h' with h'' | h''
      · exact Or.inl h''
      · exact Or.inr ⟨a, by simp, h''⟩
    · rcases h' with ⟨p, hp, hop⟩
      exact Or.inr ⟨p, by simp [hp], hop⟩

/-- Claim C10 (confirmed): record() leaves the autoFixOnSave, validate and
workingDirectories families exactly as built from the snapshot (their
changed flags stay false — the legacy values are detected but left in
place), and consequently every write update() can issue targets either the
editor's codeActionsOnSave section or a per-language section of a cached
language. -/
theorem record_update_frame (cfg : ConfigSnapshot)
    (current : String → Option (InspectData LanguageSettings)) :
    (Migration.record cfg (Migration.create cfg)).autoFixOnSave
        = MigrationData.create cfg.autoFixOnSave
    ∧ (Migration.record cfg (Migration.create cfg)).validate
        = MigrationData.create cfg.validate
    ∧ (Migration.record cfg (Migration.create cfg)).workingDirectories
        = MigrationData.create cfg.workingDirectories
    ∧ ∀ op ∈ (Migration.record cfg (Migration.create cfg)).updateOps current,
        (op.store = ConfigStore.editor ∧ op.sectionName = "codeActionsOnSave")
        ∨ (op.store = ConfigStore.workspace
           ∧ ∃ p ∈ (Migration.record cfg (Migration.create cfg)).languageSpecificSettings,
               op.sectionName = "[" ++ p.1 ++ "]") := by
  refine ⟨rfl, rfl, record_workingDirectories_eq cfg (Migration.create cfg), ?_⟩
  intro op hop
  have e1 : updateFamily ConfigStore.eslint "autoFixOnSave" ConfigValue.boolVal
      (Migration.record cfg (Migration.create cfg)).autoFixOnSave = [] :=
    updateFamily_unchanged _ _ _ (create_get_changed cfg.autoFixOnSave Tier.global)
      (create_get_changed cfg.autoFixOnSave Tier.workspace)
      (create_get_changed cfg.autoFixOnSave Tier.workspaceFolder)
  have e2 : updateFamily ConfigStore.eslint "validate" ConfigValue.validateVal
      (Migration.record cfg (Migration.create cfg)).validate = [] :=
    updateFamily_unchanged _ _ _ (create_get_changed cfg.validate Tier.global)
      (create_get_changed cfg.validate Tier.workspace)
      (create_get_changed cfg.validate Tier.workspaceFolder)
  have e3 : updateFamily ConfigStore.eslint "workingDirectories" ConfigValue.workingDirsVal
      (Migration.record cfg (Migration.create cfg)).workingDirectories = [] := by
    rw [record_workingDirectories_eq cfg (Migration.create cfg)]
    exact updateFamily_unchanged _ _ _ (create_get_changed cfg.workingDirectories Tier.global)
      (create_get_changed cfg.workingDirectories Tier.workspace)
      (create_get_changed cfg.workingDirectories Tier.workspaceFolder)
  unfold Migration.updateOps at hop
  rw [e1, e2, e3] at hop
  simp only [List.append_nil, List.nil_append] at hop
  rcases List.mem_append.mp hop with hA | hF
  · exact Or.inl (mem_updateFamily hA)
  · rcases mem_foldl_append _ _ _ op hF with h | ⟨p, hp, hop'⟩
    · simp at h
    · have hul := mem_updateLanguage hop'
      exact Or.inr ⟨hul.1, p, hp, hul.2⟩



/-- Witness for record_update_frame: the single write produced at
cfgAutoFixGlobal targets the editor's codeActionsOnSave section. -/
theorem record_update_frame_witness :
    (wopAutoFixGlobal.store = ConfigStore.editor
      ∧ wopAutoFixGlobal.sectionName = "codeActionsOnSave")
    ∨ (wopAutoFixGlobal.store = ConfigStore.workspace
      ∧ ∃ p ∈ (Migration.record cfgAutoFixGlobal (Migration.create cfgAutoFixGlobal)).languageSpecificSettings,
          wopAutoFixGlobal.sectionName = "[" ++ p.1 ++ "]") :=
  (record_update_frame cfgAutoFixGlobal (fun _ => none)).2.2.2 wopAutoFixGlobal (by decide)

lemma wdStep_not_mode (pexec : String → String → Option String)
    (wf fp : Option String) (acc : Option WorkingDirResult) {e : WorkingDirEntry}
    (h : e.isMode = false) :
    wdStep pexec wf fp acc e = wdApplyMatch (wdEntryMatch pexec wf fp e) acc := by
  cases e with
  | mode m => simp [WorkingDirEntry.isMode] at h
  | str s => rfl
  | legacy d c => rfl
  | dir d c => rfl
  | pat p c => rfl

lemma wdMatches_cons_none (pexec : String → String → Option String) (wf fp : Option String)
    (e : WorkingDirEntry) (es : List WorkingDirEntry)
    (hme : wdEntryMatch pexec wf fp e = none) :
    wdMatches pexec wf fp (e :: es) = wdMatches pexec wf fp es := by
  simp [wdMatches, List.filterMap_cons, hme]

lemma wdMatches_cons_some (pexec : String → String → Option String) (wf fp : Option String)
    (e : WorkingDirEntry) (es : List WorkingDirEntry) (q : String × Bool)
    (hme : wdEntryMatch pexec wf fp e = some q) :
    wdMatches pexec wf fp (e :: es) = q :: wdMatches pexec wf fp es := by
  simp [wdMatches, List.filterMap_cons, hme]

lemma wdFold_from_dir (pexec : String → String → Option String) (wf fp : Option String) :
    ∀ (entries : List WorkingDirEntry), (∀ e ∈ entries, e.isMode = false) →
    ∀ (d : String) (nc : Bool),
    ∃ d' nc',
      List.foldl (wdStep pexec wf fp) (some (WorkingDirResult.dir d nc)) entries
          = some (WorkingDirResult.dir d' nc')
      ∧ ((d', nc') = (d, nc) ∨ (d', nc') ∈ wdMatches pexec wf fp entries)
      ∧ d.length ≤ d'.length
      ∧ ∀ q ∈ wdMatches pexec wf fp entries, q.1.length ≤ d'.length := by
  intro entries
  induction entries with
  | nil =>
    intro _ d nc
    exact ⟨d, nc, rfl, Or.inl rfl, Nat.le_refl _, by simp [wdMatches]⟩
  | cons e es ih =>
    intro hm d nc
    have he : e.isMode = false := hm e (List.mem_cons_self e es)
    have hes : ∀ x ∈ es, x.isMode = false := fun x hx => hm x (List.mem_cons_of_mem e hx)
    rw [List.foldl_cons, wdStep_not_mode pexec wf fp (some (WorkingDirResult.dir d nc)) he]
    rcases hme : wdEntryMatch pexec wf fp e with _ | ⟨v, b⟩
    · rw [wdMatches_cons_none pexec wf fp e es hme]
      simp only [wdApplyMatch]
      exact ih hes d nc
    · rw [wdMatches_cons_some pexec wf fp e es (v, b) hme]
      simp only [wdApplyMatch]
      by_cases hlt : d.length < v.length
      · rw [if_pos hlt]
        rcases ih hes v b with ⟨d', nc', heq, hmem, hle, hall⟩
        refine ⟨d', nc', heq, ?_, ?_, ?_⟩
        · rcases hmem with h | h
          · exact Or.inr (by rw [h]; exact List.mem_cons_self _ _)
          · exact Or.inr (List.mem_cons_of_mem _ h)
        · exact Nat.le_trans (Nat.le_of_lt hlt) hle
        · intro q hq
          rcases List.mem_cons.mp hq with h | hq'
          · rw [h]; exact hle
          · exact hall q hq'
      · rw [if_neg hlt]
        rcases ih hes d nc with ⟨d', nc', heq, hmem, hle, hall⟩
        refine ⟨d', nc', heq, ?_, hle, ?_⟩
        · rcases hmem with h | h
          · exact Or.inl h
          · exact Or.inr (List.mem_cons_of_mem _ h)
        · intro q hq
          rcases List.mem_cons.mp hq with h | hq'
          · rw [h]; exact Nat.le_trans (Nat.not_lt.mp hlt) hle
          · exact hall q hq'

lemma wdFold_from_none (pexec : String → String → Option String) (wf fp : Option String) :
    ∀ (entries : List WorkingDirEntry), (∀ e ∈ entries, e.isMode = false) →
    (List.foldl (wdStep pexec wf fp) none entries = none
      ∧ wdMatches pexec wf fp entries = [])
    ∨ ∃ d' nc',
        List.foldl (wdStep pexec wf fp) none entries = some (WorkingDirResult.dir d' nc')
        ∧ (d', nc') ∈ wdMatches pexec wf fp entries
        ∧ ∀ q ∈ wdMatches pexec wf fp entries, q.1.length ≤ d'.length := by
  intro entries
  induction entries with
  | nil => exact fun _ => Or.inl ⟨rfl, by simp [wdMatches]⟩
  | cons e es ih =>
    intro hm
    have he : e.isMode = false := hm e (List.mem_cons_self e es)
    have hes : ∀ x ∈ es, x.isMode = false := fun x hx => hm x (List.mem_cons_of_mem e hx)
    rw [List.foldl_cons, wdStep_not_mode pexec wf fp none he]
    rcases hme : wdEntryMatch pexec wf fp e with _ | ⟨v, b⟩
    · rw [wdMatches_cons_none pexec wf fp e es hme]
      simp only [wdApplyMatch]
      exact ih hes
    · rw [wdMatches_cons_some pexec wf fp e es (v, b) hme]
      simp only [wdApplyMatch]
      rcases wdFold_from_dir pexec wf fp es hes v b with ⟨d', nc', heq, hmem, hle, hall⟩
      refine Or.inr ⟨d', nc', heq, ?_, ?_⟩
      · rcases hmem with h | h
        · exact by rw [h]; exact List.mem_cons_self _ _
        · exact List.mem_cons_of_mem _ h
      · intro q hq
        rcases List.mem_cons.mp hq with h | hq'
        · rw [h]; exact hle
        · exact hall q hq'

/-- Claim C7 (counterexample): with working directories
[{directory: /a}, {mode: auto}] and document path /a/b/c.js, the directory
entry matches (its normalized match is /a/), yet resolution returns the
mode entry — a mode entry unconditionally overwrites the selection, so the
resolved value is not an entry whose directory matches the path. -/
theorem working_directory_mode_overrides_counterexample :
    resolveWorkingDirectory (fun _ _ => none) none (some "/a/b/c.js")
        [WorkingDirEntry.dir "/a" none, WorkingDirEntry.mode ModeEnum.auto]
      = some (WorkingDirResult.mode ModeEnum.auto)
    ∧ wdEntryMatch (fun _ _ => none) none (some "/a/b/c.js") (WorkingDirEntry.dir "/a" none)
      = some ("/a/", false) := ⟨rfl, rfl⟩

/-- Claim C7 (amended): provided the configured list contains no mode
entries, resolution selects a directory result whose matched text is one
of the entries' matches and is longest among them; in particular for
[{directory: /a}, {directory: /a/b}] and document path /a/b/c.js the
resolved working directory is /a/b/ (the directory normalized with a
trailing separator). -/
theorem working_directory_longest_match_amended (pexec : String → String → Option String)
    (wf fp : Option String) (entries : List WorkingDirEntry)
    (hm : ∀ e ∈ entries, e.isMode = false)
    (hne : wdMatches pexec wf fp entries ≠ []) :
    (∃ d nc, resolveWorkingDirectory pexec wf fp entries = some (WorkingDirResult.dir d nc)
      ∧ (d, nc) ∈ wdMatches pexec wf fp entries
      ∧ ∀ q ∈ wdMatches pexec wf fp entries, q.1.length ≤ d.length)
    ∧ resolveWorkingDirectory pexec none (some "/a/b/c.js")
        [WorkingDirEntry.dir "/a" none, WorkingDirEntry.dir "/a/b" none]
      = some (WorkingDirResult.dir "/a/b/" false) := by
  constructor
  · rcases wdFold_from_none pexec wf fp entries hm with ⟨_, h2⟩ | ⟨d', nc', heq, hmem, hall⟩
    · exact absurd h2 hne
    · exact ⟨d', nc', heq, hmem, hall⟩
  · rfl

/-- Witness for working_directory_longest_match_amended at the
longest-prefix example of the claim. -/
theorem working_directory_longest_match_amended_witness :
    (∃ d nc, resolveWorkingDirectory (fun _ _ => none) none (some "/a/b/c.js")
        [WorkingDirEntry.dir "/a" none, WorkingDirEntry.dir "/a/b" none]
      = some (WorkingDirResult.dir d nc)
      ∧ (d, nc) ∈ wdMatches (fun _ _ => none) none (some "/a/b/c.js")
          [WorkingDirEntry.dir "/a" none, WorkingDirEntry.dir "/a/b" none]
      ∧ ∀ q ∈ wdMatches (fun _ _ => none) none (some "/a/b/c.js")
          [WorkingDirEntry.dir "/a" none, WorkingDirEntry.dir "/a/b" none],
          q.1.length ≤ d.length)
    ∧ resolveWorkingDirectory (fun _ _ => none) none (some "/a/b/c.js")
        [WorkingDirEntry.dir "/a" none, WorkingDirEntry.dir "/a/b" none]
      = some (WorkingDirResult.dir "/a/b/" false) :=
  working_directory_longest_match_amended (fun _ _ => none) none (some "/a/b/c.js")
    [WorkingDirEntry.dir "/a" none, WorkingDirEntry.dir "/a/b" none]
    (by decide) (by decide)

/-- Claim C8 (counterexample): with working directories
[{directory: /a, !cwd: true}, {directory: /a}] and document path /a/b.js,
both entries match with the same matched text /a/; the claimed
last-one-wins tie-break would select the second entry (cwd suppression
false), but the code keeps the first (cwd suppression true). -/
theorem working_directory_tie_counterexample :
    resolveWorkingDirectory (fun _ _ => none) none (some "/a/b.js")
        [WorkingDirEntry.dir "/a" (some true), WorkingDirEntry.dir "/a" none]
      = some (WorkingDirResult.dir "/a/" true)
    ∧ resolveWorkingDirectory (fun _ _ => none) none (some "/a/b.js")
        [WorkingDirEntry.dir "/a" (some true), WorkingDirEntry.dir "/a" none]
      ≠ some (WorkingDirResult.dir "/a/" false) := by
  constructor
  · rfl
  · decide

/-- Claim C8 (amended): during the single left-to-right scan, a later entry
whose matched text is not strictly longer than the currently selected
match leaves the selection unchanged — the first entry of an equal-length
tie wins (observable in the cwd-suppression flag, since equal-length
directory matches share the same matched text). -/
theorem working_directory_tie_first_wins_amended (pexec : String → String → Option String)
    (wf fp : Option String) (d : String) (nc : Bool) (e : WorkingDirEntry)
    (v : String) (b : Bool)
    (hmatch : wdEntryMatch pexec wf fp e = some (v, b))
    (hlen : v.length ≤ d.length) :
    wdStep pexec wf fp (some (WorkingDirResult.dir d nc)) e
      = some (WorkingDirResult.dir d nc) := by
  have he : e.isMode = false := by
    cases e with
    | mode m => cases fp <;> simp [wdEntryMatch] at hmatch
    | str s => rfl
    | legacy d' c => rfl
    | dir d' c => rfl
    | pat p c => rfl
  rw [wdStep_not_mode pexec wf fp _ he, hmatch]
  simp [wdApplyMatch, Nat.not_lt.mpr hlen]

/-- Witness for working_directory_tie_first_wins_amended: an equal-length
tie between two matches of /a/ keeps the first selection. -/
theorem working_directory_tie_first_wins_amended_witness :
    wdStep (fun _ _ => none) none (some "/a/b.js")
        (some (WorkingDirResult.dir "/a/" true)) (WorkingDirEntry.dir "/a" none)
      = some (WorkingDirResult.dir "/a/" true) :=
  working_directory_tie_first_wins_amended (fun _ _ => none) none (some "/a/b.js")
    "/a/" true (WorkingDirEntry.dir "/a" none) "/a/" false (by decide) (by decide)

end Patched
